import Mathlib

/-!
# Event-Next: normalization and validation pipeline, embedded

Shallow embedding of the data-integrity core of the Event-Next repository:
the slug generator, the date/time normalizers and the Event/Booking save
pipelines of `src/lib/mongodb.ts` and `src/database/booking.model.ts`.

Modelling conventions, fixed once here:

* JavaScript strings are Lean `String`s; `String.prototype.trim()` is
  `jsTrim` (ASCII whitespace; the JS version also strips rarer Unicode
  whitespace, which no claim exercises), `toLowerCase()` is
  `String.toLower` (ASCII case folding, same caveat).
* The host's `new Date(...)` parser is modelled by `parseISOTime`,
  `parseISODate` and `parseMonthNameDate`: the ECMA-262 Date Time String
  Format restricted to the shapes the code can feed it, plus the
  `"MonthName D, YYYY"` legacy format the spec's examples use.  The
  process timezone is assumed to be UTC, so local and UTC calendar
  fields coincide; out-of-range calendar dates are rejected rather than
  rolled over.  Both restrictions shrink the parser's domain, never the
  meaning of an accepted input.
* Fallible TypeScript code (functions that `throw`) returns
  `Except String _`, carrying the thrown message.
* A Mongoose save returns `Except String (List _)`: `.ok` is the new
  committed collection, `.error` aborts with nothing persisted.
-/

deriving instance DecidableEq for Except

namespace EventNext

/-! ## JavaScript string primitives -/

/-- JS `String.prototype.trim()`: strip leading and trailing whitespace. -/
def jsTrim (s : String) : String :=
  ⟨((s.data.dropWhile Char.isWhitespace).reverse.dropWhile Char.isWhitespace).reverse⟩

/-- JS `String.prototype.toLowerCase()`: fold each character to lowercase
(`String.toLower` character by character, stated on the data list so that
the kernel can evaluate it). -/
def jsToLower (s : String) : String :=
  ⟨s.data.map Char.toLower⟩

/-! ## Slug generator (`generateSlug`, src/lib/mongodb.ts lines 100-106)

`value.toLowerCase().trim().replace(/[^a-z0-9]+/g, '-').replace(/^-+|-+$/g, '')`. -/

/-- A character the slug alphabet keeps: lowercase ASCII letter or digit.
After `toLowerCase`, these are exactly the characters `[^a-z0-9]` spares. -/
def isAlnumLower (c : Char) : Bool :=
  ('a' ≤ c && c ≤ 'z') || ('0' ≤ c && c ≤ '9')

/-- The global replace `/[^a-z0-9]+/g → '-'`: every maximal run of
non-alphanumeric characters becomes a single hyphen. -/
def collapseNonAlnum : List Char → List Char
  | [] => []
  | [c] => if isAlnumLower c then [c] else ['-']
  | c :: d :: rest =>
    if isAlnumLower c then c :: collapseNonAlnum (d :: rest)
    else if isAlnumLower d then '-' :: collapseNonAlnum (d :: rest)
    else collapseNonAlnum (d :: rest)

/-- The `^-+` half of the final replace: drop leading hyphens. -/
def dropLeadingHyphens : List Char → List Char
  | [] => []
  | c :: rest => if c == '-' then dropLeadingHyphens rest else c :: rest

/-- The `-+$` half of the final replace: drop trailing hyphens. -/
def dropTrailingHyphens : List Char → List Char
  | [] => []
  | c :: rest =>
    match dropTrailingHyphens rest with
    | [] => if c == '-' then [] else [c]
    | r => c :: r

/-- The replace `/^-+|-+$/g → ''` applied after collapsing. -/
def stripHyphens (l : List Char) : List Char :=
  dropTrailingHyphens (dropLeadingHyphens l)

/-- `generateSlug` (src/lib/mongodb.ts): lowercase, trim, collapse
non-alphanumeric runs to hyphens, strip boundary hyphens. -/
def generateSlug (value : String) : String :=
  ⟨stripHyphens (collapseNonAlnum (jsTrim (jsToLower value)).data)⟩

/-! ## Spec-side well-formedness checks for slugs -/

/-- A character the spec allows in a slug: `[a-z0-9-]`. -/
def isSlugChar (c : Char) : Bool := c == '-' || isAlnumLower c

/-- No two adjacent hyphens anywhere in the list. -/
def noAdjHyphens : List Char → Bool
  | c :: d :: rest => !(c == '-' && d == '-') && noAdjHyphens (d :: rest)
  | _ => true

/-- The first character, if any, is not a hyphen. -/
def headNotHyphen : List Char → Bool
  | [] => true
  | c :: _ => !(c == '-')

/-- The last character, if any, is not a hyphen. -/
def lastNotHyphen : List Char → Bool
  | [] => true
  | [c] => !(c == '-')
  | _ :: rest => lastNotHyphen rest

/-- The spec's shape for a slug: only `[a-z0-9-]`, no boundary hyphen,
no collapsed run left as a double hyphen. -/
def slugWellFormed (s : String) : Bool :=
  s.data.all isSlugChar && headNotHyphen s.data &&
    lastNotHyphen s.data && noAdjHyphens s.data

example : generateSlug "  Hello,  World!! " = "hello-world" := by decide
example : generateSlug "" = "" := by decide
example : generateSlug "Tech  Conference!!" = "tech-conference" := by decide
example : slugWellFormed "hello-world" = true := by decide

/-! ## Slug well-formedness, step by step -/

theorem isAlnumLower_ne_hyphen {c : Char} (h : isAlnumLower c = true) :
    (c == '-') = false := by
  cases hc : c == '-' with
  | false => rfl
  | true =>
    have : c = '-' := by simpa using hc
    subst this
    exact absurd h (by decide)

theorem collapseNonAlnum_cons_alnum (d : Char) (rest : List Char)
    (h : isAlnumLower d = true) :
    ∃ t, collapseNonAlnum (d :: rest) = d :: t := by
  cases rest with
  | nil => exact ⟨[], by simp [collapseNonAlnum, h]⟩
  | cons e r => exact ⟨collapseNonAlnum (e :: r), by simp [collapseNonAlnum, h]⟩

theorem collapseNonAlnum_all (l : List Char) :
    (collapseNonAlnum l).all isSlugChar = true := by
  induction l with
  | nil => rfl
  | cons c rest ih =>
    cases rest with
    | nil =>
      cases h : isAlnumLower c <;> simp [collapseNonAlnum, h, isSlugChar]
    | cons d r2 =>
      cases h : isAlnumLower c with
      | true => simp [collapseNonAlnum, h, isSlugChar, ih]
      | false =>
        cases hd : isAlnumLower d with
        | true => simp [collapseNonAlnum, h, hd, isSlugChar, ih]
        | false => simpa [collapseNonAlnum, h, hd] using ih

theorem noAdjHyphens_tail {c : Char} {l : List Char}
    (h : noAdjHyphens (c :: l) = true) : noAdjHyphens l = true := by
  cases l with
  | nil => rfl
  | cons d r =>
    simp only [noAdjHyphens, Bool.and_eq_true] at h
    exact h.2

theorem noAdjHyphens_collapse (l : List Char) :
    noAdjHyphens (collapseNonAlnum l) = true := by
  induction l with
  | nil => rfl
  | cons c rest ih =>
    cases rest with
    | nil => cases h : isAlnumLower c <;> simp [collapseNonAlnum, h, noAdjHyphens]
    | cons d r2 =>
      cases h : isAlnumLower c with
      | false =>
        cases hd : isAlnumLower d with
        | false => simpa [collapseNonAlnum, h, hd] using ih
        | true =>
          obtain ⟨t, ht⟩ := collapseNonAlnum_cons_alnum d r2 hd
          have hdh := isAlnumLower_ne_hyphen hd
          have e : collapseNonAlnum (c :: d :: r2) = '-' :: collapseNonAlnum (d :: r2) := by
            simp [collapseNonAlnum, h, hd]
          rw [e, ht]
          rw [ht] at ih
          simp only [noAdjHyphens, Bool.and_eq_true]
          refine ⟨?_, ih⟩
          simp [hdh]
      | true =>
        have hch := isAlnumLower_ne_hyphen h
        have e : collapseNonAlnum (c :: d :: r2) = c :: collapseNonAlnum (d :: r2) := by
          simp [collapseNonAlnum, h]
        rw [e]
        cases hx : collapseNonAlnum (d :: r2) with
        | nil => simp [noAdjHyphens]
        | cons x xs =>
          rw [hx] at ih
          simp only [noAdjHyphens, Bool.and_eq_true]
          refine ⟨?_, ih⟩
          simp [hch]

theorem headNotHyphen_dropLeading (l : List Char) :
    headNotHyphen (dropLeadingHyphens l) = true := by
  induction l with
  | nil => rfl
  | cons c rest ih =>
    cases hc : c == '-' with
    | true => simpa [dropLeadingHyphens, hc] using ih
    | false => simp [dropLeadingHyphens, hc, headNotHyphen]

theorem all_dropLeading (p : Char → Bool) (l : List Char) (h : l.all p = true) :
    (dropLeadingHyphens l).all p = true := by
  induction l with
  | nil => exact h
  | cons c rest ih =>
    simp only [List.all_cons, Bool.and_eq_true] at h
    cases hc : c == '-' with
    | true => simpa [dropLeadingHyphens, hc] using ih h.2
    | false => simp [dropLeadingHyphens, hc, h.1, h.2]

theorem noAdj_dropLeading (l : List Char) (h : noAdjHyphens l = true) :
    noAdjHyphens (dropLeadingHyphens l) = true := by
  induction l with
  | nil => exact h
  | cons c rest ih =>
    cases hc : c == '-' with
    | true =>
      have := ih (noAdjHyphens_tail h)
      simpa [dropLeadingHyphens, hc] using this
    | false => simpa [dropLeadingHyphens, hc] using h

theorem dropTrailing_cons (c : Char) (rest : List Char) :
    dropTrailingHyphens (c :: rest) =
      match dropTrailingHyphens rest with
      | [] => if c == '-' then [] else [c]
      | r => c :: r := rfl

theorem dropTrailing_head {l : List Char} {x : Char} {xs : List Char}
    (h : dropTrailingHyphens l = x :: xs) : ∃ t, l = x :: t := by
  cases l with
  | nil => exact absurd h (by simp [dropTrailingHyphens])
  | cons c rest =>
    rw [dropTrailing_cons] at h
    cases hr : dropTrailingHyphens rest with
    | nil =>
      rw [hr] at h
      cases hc : c == '-' with
      | true => rw [hc] at h; simp at h
      | false =>
        rw [hc] at h
        simp at h
        exact ⟨rest, by rw [h.1]⟩
    | cons y ys =>
      rw [hr] at h
      have : c = x := by
        have : c :: y :: ys = x :: xs := h
        injection this with h1 _
      exact ⟨rest, by rw [this]⟩

theorem all_dropTrailing (p : Char → Bool) (l : List Char) (h : l.all p = true) :
    (dropTrailingHyphens l).all p = true := by
  induction l with
  | nil => exact h
  | cons c rest ih =>
    simp only [List.all_cons, Bool.and_eq_true] at h
    rw [dropTrailing_cons]
    cases hr : dropTrailingHyphens rest with
    | nil =>
      cases hc : c == '-' with
      | true => simp
      | false => simp [h.1]
    | cons y ys =>
      have := ih h.2
      rw [hr] at this
      simpa [h.1] using this

theorem lastNotHyphen_dropTrailing (l : List Char) :
    lastNotHyphen (dropTrailingHyphens l) = true := by
  induction l with
  | nil => rfl
  | cons c rest ih =>
    rw [dropTrailing_cons]
    cases hr : dropTrailingHyphens rest with
    | nil =>
      cases hc : c == '-' with
      | true => rfl
      | false => simp [lastNotHyphen, hc]
    | cons y ys =>
      rw [hr] at ih
      simpa [lastNotHyphen] using ih

theorem noAdj_dropTrailing (l : List Char) (h : noAdjHyphens l = true) :
    noAdjHyphens (dropTrailingHyphens l) = true := by
  induction l with
  | nil => exact h
  | cons c rest ih =>
    have hrest : noAdjHyphens rest = true := noAdjHyphens_tail h
    rw [dropTrailing_cons]
    cases hr : dropTrailingHyphens rest with
    | nil =>
      cases hc : c == '-' with
      | true => simp [noAdjHyphens]
      | false => simp [noAdjHyphens]
    | cons y ys =>
      have ih' := ih hrest
      rw [hr] at ih'
      obtain ⟨t, ht⟩ := dropTrailing_head hr
      rw [ht] at h
      simp only [noAdjHyphens, Bool.and_eq_true] at h ⊢
      exact ⟨h.1, ih'⟩

theorem headNotHyphen_dropTrailing (l : List Char) (h : headNotHyphen l = true) :
    headNotHyphen (dropTrailingHyphens l) = true := by
  cases hl : dropTrailingHyphens l with
  | nil => rfl
  | cons x xs =>
    obtain ⟨t, ht⟩ := dropTrailing_head hl
    rw [ht] at h
    simpa [headNotHyphen] using h

/-- C1: for every title string, `generateSlug` yields a string over the
alphabet `[a-z0-9-]` (hence lowercase) that never starts or ends with a
hyphen and never contains two adjacent hyphens (each maximal run of
non-alphanumeric characters is collapsed to a single hyphen, witnessed
concretely on `"  Hello,  World!! "`); the empty title yields the empty
slug, and the function is total, so no input raises an error. -/
theorem generateSlug_spec (s : String) :
    slugWellFormed (generateSlug s) = true ∧ generateSlug "" = "" ∧
      generateSlug "  Hello,  World!! " = "hello-world" := by
  refine ⟨?_, by decide, by decide⟩
  have h1 := collapseNonAlnum_all (jsTrim (jsToLower s)).data
  have h2 := noAdjHyphens_collapse (jsTrim (jsToLower s)).data
  have e : (generateSlug s).data =
      dropTrailingHyphens (dropLeadingHyphens
        (collapseNonAlnum (jsTrim (jsToLower s)).data)) := rfl
  simp only [slugWellFormed, e, Bool.and_eq_true]
  exact ⟨⟨⟨all_dropTrailing _ _ (all_dropLeading _ _ h1),
      headNotHyphen_dropTrailing _ (headNotHyphen_dropLeading _)⟩,
      lastNotHyphen_dropTrailing _⟩,
      noAdj_dropTrailing _ (noAdj_dropLeading _ h2)⟩

/-! ## Time normalizer (`normalizeTime`, src/lib/mongodb.ts lines 109-137)

First branch: `new Date("1970-01-01T" + trimmed)`, modelled as the
ECMA-262 Date Time String Format time part `HH:MM[:SS[.sss]][Z]`
evaluated in a UTC process.  Second branch: the fallback regex
`^(\d{1,2})(?::|\.|h)?(\d{2})?\s*(AM|PM|am|pm)?$` with greedy matching
and backtracking, then 12-hour conversion and a range check. -/

/-- Decimal digit value of a character, `none` when not `0`-`9`. -/
def digitVal (c : Char) : Option Nat :=
  if '0' ≤ c ∧ c ≤ '9' then some (c.toNat - '0'.toNat) else none

/-- Tail after `HH:MM:SS`: end of string, `Z`, or `.sss` milliseconds. -/
def isoFracTail : List Char → Bool
  | [] => true
  | ['Z'] => true
  | '.' :: d1 :: d2 :: d3 :: rest =>
    (digitVal d1).isSome && (digitVal d2).isSome && (digitVal d3).isSome &&
      (match rest with | [] => true | ['Z'] => true | _ => false)
  | _ => false

/-- Tail after `HH:MM`: end of string, `Z`, or `:SS` seconds. -/
def isoTimeTail : List Char → Bool
  | [] => true
  | ['Z'] => true
  | ':' :: s1 :: s2 :: rest =>
    (match digitVal s1, digitVal s2 with
     | some a, some b => decide (10 * a + b ≤ 59) && isoFracTail rest
     | _, _ => false)
  | _ => false

/-- ECMA-262 time-of-day parsing for `new Date("1970-01-01T" + t)`:
two-digit hour `00`-`23`, colon, two-digit minute `00`-`59`, optional
seconds/milliseconds/`Z` tail.  Non-conforming strings are Invalid Date. -/
def parseISOTime : List Char → Option (Nat × Nat)
  | h1 :: h2 :: ':' :: m1 :: m2 :: rest =>
    (match digitVal h1, digitVal h2, digitVal m1, digitVal m2 with
     | some a, some b, some c, some d =>
       if 10 * a + b ≤ 23 ∧ 10 * c + d ≤ 59 ∧ isoTimeTail rest = true then
         some (10 * a + b, 10 * c + d)
       else none
     | _, _, _, _ => none)
  | _ => none

/-- The `\s*(AM|PM|am|pm)?$` suffix of the fallback regex: skip
whitespace, then an exact-case meridiem or end of input.
`some (some true)` is PM, `some (some false)` is AM, `some none` absent. -/
def matchMeridiem (l : List Char) : Option (Option Bool) :=
  match l.dropWhile Char.isWhitespace with
  | [] => some none
  | ['A', 'M'] => some (some false)
  | ['a', 'm'] => some (some false)
  | ['P', 'M'] => some (some true)
  | ['p', 'm'] => some (some true)
  | _ => none

/-- The `(\d{2})?\s*(AM|PM|am|pm)?$` suffix: greedily take two minute
digits, backtracking to an absent minutes group if the rest then fails. -/
def matchMinutes (l : List Char) : Option (Option Nat × Option Bool) :=
  match l with
  | d1 :: d2 :: rest =>
    (match digitVal d1, digitVal d2 with
     | some a, some b =>
       (match matchMeridiem rest with
        | some ap => some (some (10 * a + b), ap)
        | none =>
          match matchMeridiem l with
          | some ap => some (none, ap)
          | none => none)
     | _, _ =>
       match matchMeridiem l with
       | some ap => some (none, ap)
       | none => none)
  | _ =>
    match matchMeridiem l with
    | some ap => some (none, ap)
    | none => none

/-- The `(?::|\.|h)?` separator: try to consume `:`, `.` or `h`,
backtracking to no separator if the rest then fails. -/
def matchSepMinutes (l : List Char) : Option (Option Nat × Option Bool) :=
  match l with
  | c :: rest =>
    if c == ':' || c == '.' || c == 'h' then
      match matchMinutes rest with
      | some r => some r
      | none => matchMinutes l
    else matchMinutes l
  | [] => matchMinutes []

/-- The whole fallback regex
`^(\d{1,2})(?::|\.|h)?(\d{2})?\s*(AM|PM|am|pm)?$`: greedy two-digit hour
first, backtracking to one digit.  Returns (hour, minutes?, meridiem?). -/
def timeRegexMatch (l : List Char) : Option (Nat × Option Nat × Option Bool) :=
  match l with
  | d1 :: rest =>
    (match digitVal d1 with
     | none => none
     | some a =>
       match rest with
       | d2 :: rest2 =>
         (match digitVal d2 with
          | some b =>
            (match matchSepMinutes rest2 with
             | some (mins, ap) => some (10 * a + b, mins, ap)
             | none =>
               match matchSepMinutes rest with
               | some (mins, ap) => some (a, mins, ap)
               | none => none)
          | none =>
            match matchSepMinutes rest with
            | some (mins, ap) => some (a, mins, ap)
            | none => none)
       | [] =>
         match matchSepMinutes [] with
         | some (mins, ap) => some (a, mins, ap)
         | none => none)
  | [] => none

/-- JS `String(n).padStart(2, '0')`, for the values that reach the
formatting step (all at most two digits). -/
def pad2 (n : Nat) : String :=
  ⟨[Nat.digitChar (n / 10 % 10), Nat.digitChar (n % 10)]⟩

/-- The template `${hh}:${mm}` both branches of `normalizeTime` emit. -/
def fmtHM (h m : Nat) : String := pad2 h ++ ":" ++ pad2 m

/-- The two 12-hour adjustments of `normalizeTime`:
`if (a === 'pm' && hour < 12) hour += 12; if (a === 'am' && hour === 12) hour = 0`. -/
def applyMeridiem (ap : Option Bool) (h0 : Nat) : Nat :=
  match ap with
  | some true => if h0 < 12 then h0 + 12 else h0
  | some false => if h0 = 12 then 0 else h0
  | none => h0

/-- `normalizeTime` (src/lib/mongodb.ts): empty input throws, then the
`Date` branch, then the fallback regex with 12-hour conversion
(`12 AM → 0`, PM adds 12 below noon) and the range check. -/
def normalizeTime (value : String) : Except String String :=
  if value = "" then .error "Time is required"
  else
    match parseISOTime (jsTrim value).data with
    | some (hh, mm) => .ok (fmtHM hh mm)
    | none =>
      match timeRegexMatch (jsTrim value).data with
      | none => .error "Invalid time format"
      | some (h0, mins, ap) =>
        if applyMeridiem ap h0 ≤ 23 ∧ mins.getD 0 ≤ 59 then
          .ok (fmtHM (applyMeridiem ap h0) (mins.getD 0))
        else .error "Invalid time value"

example : normalizeTime "9:30 AM" = .ok "09:30" := by decide
example : normalizeTime "9:30 PM" = .ok "21:30" := by decide
example : normalizeTime "12:00 AM" = .ok "00:00" := by decide
example : normalizeTime "12:00 PM" = .ok "12:00" := by decide
example : normalizeTime "21:00" = .ok "21:00" := by decide
example : normalizeTime "9.30" = .ok "09:30" := by decide
example : normalizeTime "9" = .ok "09:00" := by decide
example : normalizeTime "9 PM" = .ok "21:00" := by decide
example : normalizeTime "123" = .ok "01:23" := by decide
example : normalizeTime "" = .error "Time is required" := by decide
example : normalizeTime "banana" = .error "Invalid time format" := by decide
example : normalizeTime "99" = .error "Invalid time value" := by decide

/-! ## Claims C2, C3, C10 about the time normalizer -/

theorem parseISOTime_bounds {l : List Char} {hh mm : Nat}
    (h : parseISOTime l = some (hh, mm)) : hh ≤ 23 ∧ mm ≤ 59 := by
  unfold parseISOTime at h
  split at h
  · split at h
    · split at h
      · rename_i hc
        simp only [Option.some.injEq, Prod.mk.injEq] at h
        obtain ⟨h1, h2⟩ := h
        subst h1
        subst h2
        exact ⟨hc.1, hc.2.1⟩
      · exact absurd h (by simp)
    · exact absurd h (by simp)
  · exact absurd h (by simp)

theorem normalizeTime_ok_shape (s r : String) (h : normalizeTime s = .ok r) :
    ∃ hh mm, hh ≤ 23 ∧ mm ≤ 59 ∧ r = fmtHM hh mm := by
  simp only [normalizeTime] at h
  split at h
  · exact absurd h (by simp)
  · split at h
    · rename_i hh mm hiso
      obtain ⟨hb, mb⟩ := parseISOTime_bounds hiso
      simp only [Except.ok.injEq] at h
      exact ⟨hh, mm, hb, mb, h.symm⟩
    · split at h
      · exact absurd h (by simp)
      · split at h
        · rename_i hc
          simp only [Except.ok.injEq] at h
          exact ⟨_, _, hc.1, hc.2, h.symm⟩
        · exact absurd h (by simp)

theorem normalizeTime_fmt {h m : Nat} (hh : h ≤ 23) (hm : m ≤ 59) :
    normalizeTime (fmtHM h m) = .ok (fmtHM h m) := by
  have key : ∀ a, a ≤ 23 → ∀ b, b ≤ 59 →
      normalizeTime (fmtHM a b) = .ok (fmtHM a b) := by decide
  exact key h hh m hm

/-- C3: `normalizeTime` is idempotent on its successes: whenever it
returns a string, renormalizing that string returns it unchanged, and in
particular a canonical `HH:MM` string is returned as-is. -/
theorem normalizeTime_idempotent (s r : String) (h : normalizeTime s = .ok r) :
    normalizeTime r = .ok r := by
  obtain ⟨hh, mm, hb, mb, rfl⟩ := normalizeTime_ok_shape s r h
  exact normalizeTime_fmt hb mb

theorem normalizeTime_idempotent_witness :
    normalizeTime "09:30" = Except.ok "09:30" :=
  normalizeTime_idempotent "9:30 AM" "09:30" (by decide)

/-- C2: the four documented conversions hold — `"9:30 AM" → "09:30"`,
`"9:30 PM" → "21:30"`, `"12:00 AM" → "00:00"`, `"12:00 PM" → "12:00"` —
and in general PM adds 12 to every 12-hour-clock hour other than 12. -/
theorem normalizeTime_conversion :
    normalizeTime "9:30 AM" = .ok "09:30" ∧ normalizeTime "9:30 PM" = .ok "21:30" ∧
      normalizeTime "12:00 AM" = .ok "00:00" ∧ normalizeTime "12:00 PM" = .ok "12:00" ∧
      (∀ h : Nat, h ≤ 11 → 1 ≤ h →
        normalizeTime (toString h ++ ":30 PM") = .ok (pad2 (h + 12) ++ ":30")) := by
  exact ⟨by decide, by decide, by decide, by decide, by decide⟩

theorem normalizeTime_conversion_witness :
    normalizeTime "9:30 PM" = Except.ok "21:30" :=
  normalizeTime_conversion.2.2.2.2 9 (by decide) (by decide)

/-- C10: the fallback pattern accepts a bare hour with no minutes group —
optionally followed by AM/PM — and fills in minute `00` instead of
rejecting the input, applying the usual 12-hour conversion. -/
theorem normalizeTime_hourOnly :
    (∀ h : Nat, h ≤ 23 → normalizeTime (toString h) = .ok (pad2 h ++ ":00")) ∧
      (∀ h : Nat, h ≤ 12 → 1 ≤ h →
        normalizeTime (toString h ++ " AM") = .ok (pad2 (if h = 12 then 0 else h) ++ ":00")) ∧
      (∀ h : Nat, h ≤ 12 → 1 ≤ h →
        normalizeTime (toString h ++ " PM") = .ok (pad2 (if h = 12 then 12 else h + 12) ++ ":00")) := by
  exact ⟨by decide, by decide, by decide⟩

theorem normalizeTime_hourOnly_witness :
    normalizeTime "9" = Except.ok "09:00" ∧ normalizeTime "9 PM" = Except.ok "21:00" :=
  ⟨normalizeTime_hourOnly.1 9 (by decide),
    normalizeTime_hourOnly.2.2 9 (by decide) (by decide)⟩

/-! ## Date normalizer (`normalizeDate`, src/lib/mongodb.ts lines 140-145)

`new Date(value)` then `toISOString().slice(0, 10)`.  The parser is
modelled for the two families the spec exercises: the ECMA-262 date-only
form `YYYY-MM-DD` and the legacy `"MonthName D, YYYY"` form, both under
a UTC process, both rejecting out-of-range calendar dates. -/

/-- Gregorian leap-year test, as in ECMA-262 day-number arithmetic. -/
def isLeapYear (y : Nat) : Bool :=
  (y % 4 == 0 && y % 100 != 0) || y % 400 == 0

/-- Days in a month of a given year. -/
def daysInMonth (y m : Nat) : Nat :=
  if m = 2 then (if isLeapYear y then 29 else 28)
  else if m = 4 ∨ m = 6 ∨ m = 9 ∨ m = 11 then 30 else 31

/-- A calendar date `toISOString` can both emit with a 4-digit year and
re-read: year at most 9999, month 1-12, day within the month. -/
def validYMD (y m d : Nat) : Bool :=
  y ≤ 9999 && 1 ≤ m && m ≤ 12 && 1 ≤ d && d ≤ daysInMonth y m

/-- ECMA-262 date-only parsing for `new Date(value)`: exactly
`YYYY-MM-DD`, interpreted as UTC midnight; invalid calendar dates give
Invalid Date. -/
def parseISODate (l : List Char) : Option (Nat × Nat × Nat) :=
  match l with
  | [y1, y2, y3, y4, s1, m1, m2, s2, d1, d2] =>
    (match digitVal y1, digitVal y2, digitVal y3, digitVal y4,
           digitVal m1, digitVal m2, digitVal d1, digitVal d2 with
     | some a, some b, some c, some e, some f, some g, some h, some i =>
       if s1 = '-' ∧ s2 = '-' ∧
           validYMD (1000*a + 100*b + 10*c + e) (10*f + g) (10*h + i) = true then
         some (1000*a + 100*b + 10*c + e, 10*f + g, 10*h + i)
       else none
     | _, _, _, _, _, _, _, _ => none)
  | _ => none

/-- The English month names the legacy `Date` parser recognizes. -/
def monthNames : List (List Char × Nat) :=
  [("January".data, 1), ("February".data, 2), ("March".data, 3),
   ("April".data, 4), ("May".data, 5), ("June".data, 6),
   ("July".data, 7), ("August".data, 8), ("September".data, 9),
   ("October".data, 10), ("November".data, 11), ("December".data, 12)]

/-- Find which month name the input starts with and return the rest. -/
def findMonth : List (List Char × Nat) → List Char → Option (Nat × List Char)
  | [], _ => none
  | (name, m) :: rest, l =>
    if name.isPrefixOf l then some (m, l.drop name.length)
    else findMonth rest l

/-- The `D, YYYY` / `DD, YYYY` tail of the legacy month-name format. -/
def parseDayCommaYear : List Char → Option (Nat × Nat)
  | [d1, ',', ' ', y1, y2, y3, y4] =>
    (match digitVal d1, digitVal y1, digitVal y2, digitVal y3, digitVal y4 with
     | some a, some p, some q, some r, some t => some (a, 1000*p + 100*q + 10*r + t)
     | _, _, _, _, _ => none)
  | [d1, d2, ',', ' ', y1, y2, y3, y4] =>
    (match digitVal d1, digitVal d2,
           digitVal y1, digitVal y2, digitVal y3, digitVal y4 with
     | some a, some b, some p, some q, some r, some t =>
       some (10*a + b, 1000*p + 100*q + 10*r + t)
     | _, _, _, _, _, _ => none)
  | _ => none

/-- Legacy `"MonthName D, YYYY"` parsing for `new Date(value)` (local
midnight, which is UTC midnight in a UTC process). -/
def parseMonthNameDate (l : List Char) : Option (Nat × Nat × Nat) :=
  match findMonth monthNames l with
  | some (m, ' ' :: rest) =>
    (match parseDayCommaYear rest with
     | some (d, y) => if validYMD y m d = true then some (y, m, d) else none
     | none => none)
  | _ => none

/-- The host `new Date(value)` parse: the specified ISO date form first,
then the legacy month-name form; `none` is Invalid Date. -/
def jsParseDate (s : String) : Option (Nat × Nat × Nat) :=
  match parseISODate s.data with
  | some r => some r
  | none => parseMonthNameDate s.data

/-- JS `String(n).padStart(4, '0')` as `toISOString` emits the year. -/
def pad4 (n : Nat) : String :=
  ⟨[Nat.digitChar (n / 1000 % 10), Nat.digitChar (n / 100 % 10),
    Nat.digitChar (n / 10 % 10), Nat.digitChar (n % 10)]⟩

/-- `toISOString().slice(0, 10)`: the `YYYY-MM-DD` layout. -/
def fmtDate (y m d : Nat) : String := pad4 y ++ "-" ++ pad2 m ++ "-" ++ pad2 d

/-- `normalizeDate` (src/lib/mongodb.ts): empty input throws
`Date is required`, an unparsable input throws `Invalid date`, otherwise
the parsed UTC calendar date is re-emitted as `YYYY-MM-DD`. -/
def normalizeDate (value : String) : Except String String :=
  if value = "" then .error "Date is required"
  else
    match jsParseDate value with
    | none => .error "Invalid date"
    | some (y, m, d) => .ok (fmtDate y m d)

example : normalizeDate "September 15, 2024" = .ok "2024-09-15" := by decide
example : normalizeDate "2024-09-15" = .ok "2024-09-15" := by decide
example : normalizeDate "" = .error "Date is required" := by decide
example : normalizeDate "2024-02-30" = .error "Invalid date" := by decide
example : normalizeDate "February 29, 2024" = .ok "2024-02-29" := by decide
example : normalizeDate "February 29, 2023" = .error "Invalid date" := by decide
example : normalizeDate "not a date" = .error "Invalid date" := by decide

/-! ## Claims C4 and C5 about the date normalizer -/

theorem digitVal_digitChar : ∀ k, k < 10 → digitVal (Nat.digitChar k) = some k := by
  decide

theorem parseISODate_fmtDate {y m d : Nat} (hv : validYMD y m d = true) :
    parseISODate (fmtDate y m d).data = some (y, m, d) := by
  have hb : y ≤ 9999 ∧ 1 ≤ m ∧ m ≤ 12 ∧ 1 ≤ d ∧ d ≤ daysInMonth y m := by
    simpa [validYMD, Bool.and_eq_true, and_assoc] using hv
  have hd31 : d ≤ 31 := by
    have := hb.2.2.2.2
    have h31 : daysInMonth y m ≤ 31 := by
      unfold daysInMonth
      split
      · split <;> omega
      · split <;> omega
    omega
  have e : (fmtDate y m d).data =
      [Nat.digitChar (y / 1000 % 10), Nat.digitChar (y / 100 % 10),
       Nat.digitChar (y / 10 % 10), Nat.digitChar (y % 10), '-',
       Nat.digitChar (m / 10 % 10), Nat.digitChar (m % 10), '-',
       Nat.digitChar (d / 10 % 10), Nat.digitChar (d % 10)] := rfl
  have ey : 1000 * (y / 1000 % 10) + 100 * (y / 100 % 10) + 10 * (y / 10 % 10) + y % 10 = y := by
    have := hb.1
    omega
  have em : 10 * (m / 10 % 10) + m % 10 = m := by
    have := hb.2.2.1
    omega
  have ed : 10 * (d / 10 % 10) + d % 10 = d := by
    omega
  rw [e]
  simp only [parseISODate,
    digitVal_digitChar _ (Nat.mod_lt _ (by omega)),
    ey, em, ed]
  simp [hv]

theorem parseISODate_valid {l : List Char} {y m d : Nat}
    (h : parseISODate l = some (y, m, d)) : validYMD y m d = true := by
  unfold parseISODate at h
  split at h
  · split at h
    · split at h
      · rename_i hc
        simp only [Option.some.injEq, Prod.mk.injEq] at h
        obtain ⟨h1, h2, h3⟩ := h
        subst h1
        subst h2
        subst h3
        exact hc.2.2
      · exact absurd h (by simp)
    · exact absurd h (by simp)
  · exact absurd h (by simp)

theorem parseMonthNameDate_valid {l : List Char} {y m d : Nat}
    (h : parseMonthNameDate l = some (y, m, d)) : validYMD y m d = true := by
  unfold parseMonthNameDate at h
  split at h
  · split at h
    · split at h
      · rename_i hc
        simp only [Option.some.injEq, Prod.mk.injEq] at h
        obtain ⟨h1, h2, h3⟩ := h
        subst h1
        subst h2
        subst h3
        exact hc
      · exact absurd h (by simp)
    · exact absurd h (by simp)
  · exact absurd h (by simp)

theorem jsParseDate_valid {s : String} {y m d : Nat}
    (h : jsParseDate s = some (y, m, d)) : validYMD y m d = true := by
  unfold jsParseDate at h
  split at h
  · rename_i r hiso
    simp only [Option.some.injEq] at h
    subst h
    exact parseISODate_valid hiso
  · exact parseMonthNameDate_valid h

theorem normalizeDate_ok_shape {s r : String} (h : normalizeDate s = .ok r) :
    ∃ y m d, validYMD y m d = true ∧ r = fmtDate y m d := by
  simp only [normalizeDate] at h
  split at h
  · exact absurd h (by simp)
  · split at h
    · exact absurd h (by simp)
    · rename_i y m d heq
      simp only [Except.ok.injEq] at h
      exact ⟨y, m, d, jsParseDate_valid heq, h.symm⟩

theorem fmtDate_ne_empty (y m d : Nat) : fmtDate y m d ≠ "" := by
  intro h
  have : (fmtDate y m d).data = [] := by rw [h]
  exact absurd this (by simp [fmtDate, pad4, pad2])

/-- C4: `normalizeDate` maps `"September 15, 2024"` to `"2024-09-15"`,
and every success is the `YYYY-MM-DD` rendering of a valid UTC calendar
date. -/
theorem normalizeDate_spec :
    normalizeDate "September 15, 2024" = .ok "2024-09-15" ∧
      ∀ s r, normalizeDate s = .ok r →
        ∃ y m d, validYMD y m d = true ∧ r = fmtDate y m d := by
  exact ⟨by decide, fun s r h => normalizeDate_ok_shape h⟩

theorem normalizeDate_spec_witness :
    ∃ y m d, validYMD y m d = true ∧ "2024-09-15" = fmtDate y m d :=
  normalizeDate_spec.2 "September 15, 2024" "2024-09-15" (by decide)

/-- C5: `normalizeDate` is idempotent on its successes — renormalizing
an emitted `YYYY-MM-DD` string returns it unchanged — and it fails
exactly when the input is empty or does not parse as a valid calendar
date. -/
theorem normalizeDate_idempotent (s : String) :
    (∀ r, normalizeDate s = .ok r → normalizeDate r = .ok r) ∧
      ((∃ e, normalizeDate s = .error e) ↔ s = "" ∨ jsParseDate s = none) := by
  constructor
  · intro r h
    obtain ⟨y, m, d, hv, rfl⟩ := normalizeDate_ok_shape h
    have hne := fmtDate_ne_empty y m d
    have hiso := parseISODate_fmtDate hv
    simp only [normalizeDate, if_neg hne, jsParseDate, hiso]
  · constructor
    · rintro ⟨e, he⟩
      by_cases hs : s = ""
      · exact Or.inl hs
      · right
        simp only [normalizeDate, if_neg hs] at he
        cases hj : jsParseDate s with
        | none => rfl
        | some t =>
          obtain ⟨y, m, d⟩ := t
          rw [hj] at he
          exact absurd he (by simp)
    · rintro (hs | hj)
      · exact ⟨"Date is required", by simp [normalizeDate, hs]⟩
      · by_cases hs : s = ""
        · exact ⟨"Date is required", by simp [normalizeDate, hs]⟩
        · exact ⟨"Invalid date", by simp [normalizeDate, if_neg hs, hj]⟩

theorem normalizeDate_idempotent_witness :
    normalizeDate "2024-09-15" = Except.ok "2024-09-15" :=
  (normalizeDate_idempotent "September 15, 2024").1 "2024-09-15" (by decide)

/-! ## Booking model (src/database/booking.model.ts)

A Booking stores an `eventId` and an `email`.  The email path has the
Mongoose `trim` and `lowercase` setters and the validator
`EMAIL_RE = /^[^\s@]+@[^\s@]+\.[^\s@]+$/`.  Validation runs before the
user `pre('save')` hook (Mongoose unshifts `validateBeforeSave` ahead of
user hooks), and the hook performs one read — `Event.exists({_id})` —
and throws when the referenced event is missing.  A save returns the new
committed collection, or an error with nothing persisted. -/

/-- A character of the `[^\s@]` class of `EMAIL_RE`. -/
def isAtomChar (c : Char) : Bool := !c.isWhitespace && c != '@'

/-- `EMAIL_RE.test`: a non-empty `[^\s@]+` local part, one `@`, and a
domain of `[^\s@]` characters containing a `.` that is neither its first
nor its last character (the greedy groups backtrack to any such dot). -/
def emailOk (l : List Char) : Bool :=
  match l.drop (l.takeWhile isAtomChar).length with
  | '@' :: domain =>
    !(l.takeWhile isAtomChar).isEmpty && domain.all isAtomChar &&
      (domain.drop 1).dropLast.contains '.'
  | _ => false

/-- The Mongoose `trim` and `lowercase` setters applied to an email. -/
def normalizeEmail (e : String) : String := jsToLower (jsTrim e)

/-- A Booking document: the referenced event id and the raw email. -/
structure BookingDoc where
  eventId : Nat
  email : String
deriving DecidableEq

/-- The Booking save pipeline: setters, required check, `EMAIL_RE`
validator, then the pre-save existence check against the committed
event ids, then the write. -/
def saveBooking (eventIds : List Nat) (store : List BookingDoc) (b : BookingDoc) :
    Except String (List BookingDoc) :=
  if normalizeEmail b.email = "" then .error "Email is required"
  else if emailOk (normalizeEmail b.email).data then
    if eventIds.contains b.eventId then
      .ok (store ++ [⟨b.eventId, normalizeEmail b.email⟩])
    else .error "Referenced event does not exist"
  else .error "Invalid email format"

example : emailOk "a@b.co".data = true := by decide
example : emailOk "not-an-email".data = false := by decide
example : emailOk "a@b.".data = false := by decide
example : emailOk "a@.b".data = false := by decide
example : emailOk "a@b@c.d".data = false := by decide
example : emailOk "a b@c.d".data = false := by decide
example : emailOk "a@sub.domain.tld".data = true := by decide

/-- C6: with a well-formed email, saving a Booking fails with the
referential-integrity error — persisting nothing — exactly when the
referenced event id is not among the committed events, and succeeds,
appending the booking, when it is. -/
theorem saveBooking_refIntegrity (eventIds : List Nat) (store : List BookingDoc)
    (b : BookingDoc) (hv : emailOk (normalizeEmail b.email).data = true) :
    (eventIds.contains b.eventId = false →
      saveBooking eventIds store b = .error "Referenced event does not exist") ∧
    (eventIds.contains b.eventId = true →
      saveBooking eventIds store b = .ok (store ++ [⟨b.eventId, normalizeEmail b.email⟩])) := by
  have hne : normalizeEmail b.email ≠ "" := by
    intro h
    rw [h] at hv
    exact absurd hv (by decide)
  constructor
  · intro hc
    have hm : b.eventId ∉ eventIds := by simpa using hc
    simp [saveBooking, hne, hv, hm]
  · intro hc
    have hm : b.eventId ∈ eventIds := by simpa using hc
    simp [saveBooking, hne, hv, hm]

theorem saveBooking_refIntegrity_witness :
    saveBooking [] [] ⟨5, "a@b.co"⟩ = Except.error "Referenced event does not exist" ∧
      saveBooking [5] [] ⟨5, "a@b.co"⟩ = Except.ok [⟨5, "a@b.co"⟩] :=
  ⟨(saveBooking_refIntegrity [] [] ⟨5, "a@b.co"⟩ (by decide)).1 (by decide),
   (saveBooking_refIntegrity [5] [] ⟨5, "a@b.co"⟩ (by decide)).2 (by decide)⟩

/-- C8: a Booking with email `"not-an-email"` is rejected with the
invalid-format error; `"User@Example.com"` is accepted and stored
trimmed and lowercased as `"user@example.com"` (trimming shown on a
padded variant as well). -/
theorem bookingEmail_examples :
    saveBooking [1] [] ⟨1, "not-an-email"⟩ = .error "Invalid email format" ∧
      saveBooking [1] [] ⟨1, "User@Example.com"⟩ = .ok [⟨1, "user@example.com"⟩] ∧
      normalizeEmail "  User@Example.com " = "user@example.com" := by
  exact ⟨by decide, by decide, by decide⟩

/-! ## Event model (src/lib/mongodb.ts lines 147-233)

An Event document carries the schema's fields plus the Mongoose
modified-paths flags the `pre('save')` hook consults (`isModified`).
The hook (lines 214-229) regenerates the slug when the title is new or
changed or no slug exists, renormalizes `date` and `time` when those
fields changed, and touches nothing else.

Validation (required/non-empty rules) runs before the user hook —
Mongoose unshifts its `validateBeforeSave` middleware ahead of user
`pre('save')` hooks — and contains no uniqueness rule: `unique: true`
on the slug path and `eventSchema.index({slug: 1}, {unique: true})`
both only declare the storage-layer unique index, whose rejection is
the driver's `E11000 duplicate key error`. -/

/-- An Event document: schema fields plus the `isModified` flags the
pre-save hook reads.  An absent slug is the empty string (`!this.slug`). -/
structure EventDoc where
  title : String
  slug : String
  description : String
  overview : String
  image : String
  venue : String
  location : String
  date : String
  time : String
  mode : String
  audience : String
  organizer : String
  agenda : List String
  tags : List String
  modifiedTitle : Bool
  modifiedDate : Bool
  modifiedTime : Bool
deriving DecidableEq

/-- Hook step 1: `if (this.isModified('title') || !this.slug) this.slug = generateSlug(this.title)`. -/
def hookSlug (d : EventDoc) : EventDoc :=
  if d.modifiedTitle || d.slug == "" then { d with slug := generateSlug d.title } else d

/-- Hook step 2: `if (this.isModified('date')) this.date = normalizeDate(this.date)`. -/
def hookDate (d : EventDoc) : Except String EventDoc :=
  if d.modifiedDate then
    match normalizeDate d.date with
    | .error e => .error e
    | .ok nd => .ok { d with date := nd }
  else .ok d

/-- Hook step 3: `if (this.isModified('time')) this.time = normalizeTime(this.time)`. -/
def hookTime (d : EventDoc) : Except String EventDoc :=
  if d.modifiedTime then
    match normalizeTime d.time with
    | .error e => .error e
    | .ok nt => .ok { d with time := nt }
  else .ok d

/-- The whole `eventSchema.pre('save')` hook: the three steps in source
order, aborting on the first thrown error. -/
def eventPreSave (d : EventDoc) : Except String EventDoc :=
  match hookDate (hookSlug d) with
  | .error e => .error e
  | .ok d2 => hookTime d2

/-- Mongoose's required/non-empty check for a trimmed string path. -/
def reqStr (s : String) : Bool := jsTrim s != ""

/-- The schema's application-level validation rules: every string path
required and non-empty after trim, `agenda` and `tags` non-empty.  Note
there is no uniqueness rule here: the validator set sees one document
and never consults the collection. -/
def eventValidate (d : EventDoc) : Bool :=
  reqStr d.title && reqStr d.slug && reqStr d.description && reqStr d.overview &&
    reqStr d.image && reqStr d.venue && reqStr d.location && reqStr d.date &&
    reqStr d.time && reqStr d.mode && reqStr d.audience && reqStr d.organizer &&
    !d.agenda.isEmpty && !d.tags.isEmpty

/-- The Event save pipeline: validation (before the user hook), the
pre-save hook, then the write, which the storage layer's unique index
on `slug` rejects with a duplicate-key error when a committed event
already holds the same slug. -/
def saveEvent (store : List EventDoc) (d : EventDoc) : Except String (List EventDoc) :=
  if eventValidate d then
    match eventPreSave d with
    | .error e => .error e
    | .ok r =>
      if store.any (fun e => e.slug == r.slug) then .error "E11000 duplicate key error"
      else .ok (store ++ [r])
  else .error "Event validation failed"

/-! ## Claim C9: the hook's frame -/

theorem hookSlug_eq (d : EventDoc) :
    hookSlug d = { d with
      slug := if d.modifiedTitle || d.slug == "" then generateSlug d.title else d.slug } := by
  unfold hookSlug
  split
  · rename_i hc
    simp [hc]
  · rename_i hc
    simp [hc]

theorem hookDate_ok {d r : EventDoc} (h : hookDate d = .ok r) :
    ∃ nd, r = { d with date := nd } ∧
      (d.modifiedDate = true → normalizeDate d.date = .ok nd) ∧
      (d.modifiedDate = false → nd = d.date) := by
  unfold hookDate at h
  split at h
  · rename_i hm
    cases hnd : normalizeDate d.date with
    | error e => rw [hnd] at h; exact absurd h (by simp)
    | ok nd =>
      rw [hnd] at h
      simp only [Except.ok.injEq] at h
      exact ⟨nd, h.symm, fun _ => rfl, fun hf => by rw [hm] at hf; cases hf⟩
  · rename_i hm
    simp only [Except.ok.injEq] at h
    refine ⟨d.date, ?_, fun ht => absurd ht hm, fun _ => rfl⟩
    rw [← h]

theorem hookTime_ok {d r : EventDoc} (h : hookTime d = .ok r) :
    ∃ nt, r = { d with time := nt } ∧
      (d.modifiedTime = true → normalizeTime d.time = .ok nt) ∧
      (d.modifiedTime = false → nt = d.time) := by
  unfold hookTime at h
  split at h
  · rename_i hm
    cases hnt : normalizeTime d.time with
    | error e => rw [hnt] at h; exact absurd h (by simp)
    | ok nt =>
      rw [hnt] at h
      simp only [Except.ok.injEq] at h
      exact ⟨nt, h.symm, fun _ => rfl, fun hf => by rw [hm] at hf; cases hf⟩
  · rename_i hm
    simp only [Except.ok.injEq] at h
    refine ⟨d.time, ?_, fun ht => absurd ht hm, fun _ => rfl⟩
    rw [← h]

/-- C9: when the pre-save hook succeeds, the slug is `generateSlug` of
the title exactly when the title changed or no slug existed and is kept
otherwise; the date is renormalized exactly when the date changed, the
time exactly when the time changed; and every other field is untouched. -/
theorem eventPreSave_frame (d r : EventDoc) (h : eventPreSave d = .ok r) :
    ((d.modifiedTitle || d.slug == "") = true → r.slug = generateSlug d.title) ∧
    ((d.modifiedTitle || d.slug == "") = false → r.slug = d.slug) ∧
    (d.modifiedDate = true → normalizeDate d.date = .ok r.date) ∧
    (d.modifiedDate = false → r.date = d.date) ∧
    (d.modifiedTime = true → normalizeTime d.time = .ok r.time) ∧
    (d.modifiedTime = false → r.time = d.time) ∧
    r.title = d.title ∧ r.description = d.description ∧ r.overview = d.overview ∧
    r.image = d.image ∧ r.venue = d.venue ∧ r.location = d.location ∧
    r.mode = d.mode ∧ r.audience = d.audience ∧ r.organizer = d.organizer ∧
    r.agenda = d.agenda ∧ r.tags = d.tags := by
  unfold eventPreSave at h
  cases hd : hookDate (hookSlug d) with
  | error e => rw [hd] at h; exact absurd h (by simp)
  | ok d2 =>
    rw [hd] at h
    obtain ⟨nd, hd2, hdt, hdf⟩ := hookDate_ok hd
    obtain ⟨nt, hr, htt, htf⟩ := hookTime_ok h
    subst hd2
    subst hr
    rw [hookSlug_eq] at hdt hdf htt htf
    refine ⟨?_, ?_, ?_, ?_, ?_, ?_, ?_, ?_, ?_, ?_, ?_, ?_, ?_, ?_, ?_, ?_, ?_⟩
    · intro hc
      simp [hookSlug_eq, hc]
    · intro hc
      simp [hookSlug_eq, hc]
    · intro hc
      have := hdt (by simpa using hc)
      simpa using this
    · intro hc
      have := hdf (by simpa using hc)
      simp [hookSlug_eq, this]
    · intro hc
      have := htt (by simpa using hc)
      simpa using this
    · intro hc
      have := htf (by simpa using hc)
      simp [hookSlug_eq, this]
    all_goals simp [hookSlug_eq]

/-- A fully modified fresh Event document, for exercising the hook. -/
def evFresh : EventDoc :=
  { title := "My Event", slug := "", description := "d", overview := "o",
    image := "i", venue := "v", location := "l", date := "September 15, 2024",
    time := "9:30 AM", mode := "m", audience := "a", organizer := "org",
    agenda := ["x"], tags := ["y"],
    modifiedTitle := true, modifiedDate := true, modifiedTime := true }

/-- What the hook turns `evFresh` into. -/
def evFreshSaved : EventDoc :=
  { evFresh with slug := "my-event", date := "2024-09-15", time := "09:30" }

theorem eventPreSave_frame_witness :
    evFreshSaved.slug = generateSlug evFresh.title ∧
      normalizeDate evFresh.date = Except.ok evFreshSaved.date :=
  ⟨(eventPreSave_frame evFresh evFreshSaved (by decide)).1 (by decide),
   (eventPreSave_frame evFresh evFreshSaved (by decide)).2.2.1 (by decide)⟩

/-! ## Claim C7: slug uniqueness of committed Events -/

/-- First committed event: its title generates the slug `tech-conference`. -/
def ev1 : EventDoc :=
  { title := "Tech Conference", slug := "seed-1", description := "d1",
    overview := "o1", image := "i1", venue := "v1", location := "l1",
    date := "2024-09-15", time := "10:00", mode := "m1", audience := "a1",
    organizer := "org1", agenda := ["x1"], tags := ["y1"],
    modifiedTitle := true, modifiedDate := false, modifiedTime := false }

/-- `ev1` as the hook commits it. -/
def ev1Saved : EventDoc := { ev1 with slug := "tech-conference" }

/-- A second event whose different title normalizes to the same slug. -/
def ev2 : EventDoc :=
  { title := "Tech  Conference!!", slug := "seed-2", description := "d2",
    overview := "o2", image := "i2", venue := "v2", location := "l2",
    date := "2024-10-20", time := "11:00", mode := "m2", audience := "a2",
    organizer := "org2", agenda := ["x2"], tags := ["y2"],
    modifiedTitle := true, modifiedDate := false, modifiedTime := false }

/-- `ev2` after the hook: the very slug `ev1Saved` already holds. -/
def ev2Saved : EventDoc := { ev2 with slug := "tech-conference" }

/-- C7 counterexample: the claim locates the uniqueness check at the
application level, but the application-level rule set accepts the
colliding second event — `eventValidate` sees one document and has no
uniqueness rule — and the rejection comes from the storage-layer
unique-index step of the write. -/
theorem saveEvent_appLevel_counterexample :
    saveEvent [] ev1 = .ok [ev1Saved] ∧
      eventValidate ev2 = true ∧
      saveEvent [ev1Saved] ev2 = .error "E11000 duplicate key error" := by
  exact ⟨by decide, by decide, by decide⟩

/-- C7 (amended): slugs of committed Events are unique — a save whose
hook result collides with a committed slug fails with the storage
layer's duplicate-key error and persists nothing, and a save with a
fresh slug commits — with the constraint enforced by the storage-layer
unique index alone, there being no application-level uniqueness check. -/
theorem saveEvent_slugUnique (store : List EventDoc) (d r : EventDoc)
    (hv : eventValidate d = true) (hp : eventPreSave d = .ok r) :
    (store.any (fun e => e.slug == r.slug) = true →
      saveEvent store d = .error "E11000 duplicate key error") ∧
    (store.any (fun e => e.slug == r.slug) = false →
      saveEvent store d = .ok (store ++ [r])) := by
  constructor <;> intro hc <;> simp [saveEvent, hv, hp, hc]

theorem saveEvent_slugUnique_witness :
    saveEvent [ev1Saved] ev2 = Except.error "E11000 duplicate key error" :=
  (saveEvent_slugUnique [ev1Saved] ev2 ev2Saved (by decide) (by decide)).1 (by decide)

end EventNext
